import Mathlib

/-!
# Verification of the `ArtifactManager` versioned artifact store

A shallow embedding of `src/utils/artifact_manager.py` (class `ArtifactManager`)
and of the metadata-patch step of `src/pipelines/orchestrator.py` (`run_pipeline`,
step 4), together with proofs and refutations of the specified properties of the
version allocator, bundle writer, latest promoter, catalog indexer and loader.

The on-disk state visible to the manager is modelled by `Store`:
the `versions/` directory (an association list of directory name to directory
contents), the `latest/` directory, the global catalog file `metadata.json`,
and existence flags for the two directories.  Opaque pickled blobs are
modelled as `Json` values (their content is never inspected by the manager).
Python exceptions are modelled by `Except PyError`; the nondeterministic
`datetime.now().isoformat()` timestamp is passed in as an explicit argument.
-/

namespace AirbnbMLOps

/-- A JSON-like value: the payloads the manager serializes (run metadata,
feature dictionaries) and the opaque blobs it stores. -/
inductive Json where
  | null
  | str (s : String)
  | num (n : Int)
  | obj (fields : List (String × Json))
  | arr (items : List Json)

/-- Python exceptions that the embedded operations can raise. -/
inductive PyError where
  | valueError
  | fileNotFoundError (msg : String)
deriving DecidableEq

/-- First-match lookup in a JSON object's field list (Python `dict` access:
keys are unique in a real dict, so first match is the match). -/
def dictLookup : List (String × Json) → String → Option Json
  | [], _ => none
  | e :: es, k => if e.1 = k then some e.2 else dictLookup es k

/-- Python `dict.get(key, default)`. -/
def dictGet (d : List (String × Json)) (k : String) (dflt : Json) : Json :=
  (dictLookup d k).getD dflt

/-- Python `d[k] = v` on a dict: replace the value in place if the key is
present, else append the new key at the end. -/
def setKey : List (String × Json) → String → Json → List (String × Json)
  | [], k, v => [(k, v)]
  | e :: es, k, v => if e.1 = k then (k, v) :: es else e :: setKey es k v

/-- `metadata["metrics"] = metrics` on a loaded JSON document (call sites only
ever apply this to objects). -/
def jsonSetField : Json → String → Json → Json
  | .obj kvs, k, v => .obj (setKey kvs k v)
  | j, _, _ => j

/-- The key list of a JSON object (Python `dict` iteration order:
insertion order). -/
def jsonKeys : Json → List String
  | .obj kvs => kvs.map Prod.fst
  | _ => []

/-! ## Python string ordering

Python compares strings lexicographically by Unicode code point; `sorted`
on a list of version-directory names uses exactly this order.  This is the
order under scrutiny in the allocator claims, so it is embedded explicitly. -/

/-- Lexicographic code-point comparison of character lists:
Python's `str.__lt__`. -/
def charListLt : List Char → List Char → Bool
  | _, [] => false
  | [], _ :: _ => true
  | a :: as, b :: bs =>
    if a.toNat < b.toNat then true
    else if b.toNat < a.toNat then false
    else charListLt as bs

/-- Python `a < b` on strings. -/
def pyStrLt (a b : String) : Bool := charListLt a.data b.data

/-- Stable insertion used to model Python's stable `list.sort`/`sorted`.
`lt e x = true` means the element `e` being inserted must be placed after
`x`; with a strict comparison this keeps equal elements in input order. -/
def insertByB {α : Type} (lt : α → α → Bool) (e : α) : List α → List α
  | [] => [e]
  | x :: xs => if lt e x then x :: insertByB lt e xs else e :: x :: xs

/-- Stable insertion sort (Python `sorted` / `list.sort`): elements are
folded in from the right, so each element is inserted into the already
sorted list of its successors. -/
def sortByB {α : Type} (lt : α → α → Bool) (l : List α) : List α :=
  l.foldr (insertByB lt) []

/-- Python `sorted` on strings (ascending, code-point lexicographic). -/
def pySortedStr (l : List String) : List String :=
  sortByB (fun e x => pyStrLt x e) l

/-! ## Version-string parsing -/

/-- Digits of a decimal literal folded to a `Nat`. -/
def digitsToNat (l : List Char) : Nat :=
  l.foldl (fun acc c => acc * 10 + (c.toNat - '0'.toNat)) 0

/-- Whether every character is a decimal digit. -/
def allDigits (l : List Char) : Bool :=
  l.all (fun c => '0'.toNat ≤ c.toNat && c.toNat ≤ '9'.toNat)

/-- Python `s.split(sep)` for a one-character separator: the pieces between
occurrences of the separator, keeping empty pieces. -/
def splitOnChar (sep : Char) : List Char → List (List Char)
  | [] => [[]]
  | c :: cs =>
    if c = sep then [] :: splitOnChar sep cs
    else
      match splitOnChar sep cs with
      | [] => [[c]]
      | r :: rs => (c :: r) :: rs

/-- Python `int(s)` restricted to the shapes that matter here: an optional
sign followed by a nonempty run of decimal digits parses; anything else
raises `ValueError` (modelled as `none`). -/
def parsePyInt (s : List Char) : Option Int :=
  match s with
  | [] => none
  | '-' :: rest =>
    if rest.isEmpty then none
    else if allDigits rest then some (-(digitsToNat rest : Int)) else none
  | '+' :: rest =>
    if rest.isEmpty then none
    else if allDigits rest then some (digitsToNat rest : Int) else none
  | l => if allDigits l then some (digitsToNat l : Int) else none

/-- `major, minor, patch = map(int, name[1:].split("."))`: succeeds exactly
when dropping the first character and splitting on `.` yields three pieces
that each parse as an integer; any other shape raises (modelled as `none`). -/
def parseVersionTriple (name : String) : Option (Int × Int × Int) :=
  match (splitOnChar '.' (name.data.drop 1)).map parsePyInt with
  | [some a, some b, some c] => some (a, b, c)
  | _ => none

/-- `f"v{major}.{minor}.{patch}"`. -/
def formatVersion (major minor patch : Int) : String :=
  "v" ++ toString major ++ "." ++ toString minor ++ "." ++ toString patch

/-- Strict numeric ordering on `(major, minor, patch)` triples — the ordering
the specification requires for version identifiers. -/
def tripleLt : Int × Int × Int → Int × Int × Int → Bool
  | (a1, b1, c1), (a2, b2, c2) =>
    if a1 < a2 then true
    else if a2 < a1 then false
    else if b1 < b2 then true
    else if b2 < b1 then false
    else decide (c1 < c2)

/-! ## The store state -/

/-- Contents of one version directory (or of `latest/`): the four files the
manager reads and writes.  Blobs and the parsed content of `metadata.json`
are `Json`; `none` means the file is absent. -/
structure VersionDir where
  model : Option Json
  preprocessor : Option Json
  featureNames : Option Json
  metadataJson : Option Json

/-- A directory with none of the four files. -/
def emptyVersionDir : VersionDir :=
  { model := none, preprocessor := none, featureNames := none, metadataJson := none }

/-- One summary entry of the global catalog's `versions` list. -/
structure CatalogEntry where
  version : String
  timestamp : String
  metrics : Json
  model_type : String

/-- The global catalog document `artifacts/metadata.json`.  Each field is
optional because the code starts from `{}` and guards
`if "versions" not in global_metadata`. -/
structure Catalog where
  latest_version : Option String := none
  last_updated : Option String := none
  versions : Option (List CatalogEntry) := none

/-- The portion of the filesystem the manager touches.  Entries of
`versions` model the subdirectories of `versions/` (the code filters
`is_dir()`, so plain files there are not represented). -/
structure Store where
  versionsDirExists : Bool
  latestDirExists : Bool
  versions : List (String × VersionDir)
  latest : VersionDir
  metadataFile : Option Catalog

/-- A store on which no `ArtifactManager` has ever been constructed. -/
def emptyStore : Store :=
  { versionsDirExists := false, latestDirExists := false,
    versions := [], latest := emptyVersionDir, metadataFile := none }

/-- `ArtifactManager.__init__`: `mkdir(parents=True, exist_ok=True)` on
`versions/` and `latest/` — creates the directories when absent, keeps all
existing contents. -/
def Store.init (s : Store) : Store :=
  { s with versionsDirExists := true, latestDirExists := true }

/-- The directory names scanned by the allocator:
`[d.name for d in versions_dir.iterdir() if d.is_dir()]`. -/
def versionNames (s : Store) : List String :=
  s.versions.map Prod.fst

/-- Filesystem path resolution `versions_dir / name`: the (unique on a real
filesystem, hence first) entry with that name. -/
def lookupVersion : List (String × VersionDir) → String → Option VersionDir
  | [], _ => none
  | e :: es, n => if e.1 = n then some e.2 else lookupVersion es n

/-- Create-or-overwrite of a version directory's files. -/
def upsertVersion : List (String × VersionDir) → String → VersionDir → List (String × VersionDir)
  | [], n, vd => [(n, vd)]
  | e :: es, n, vd => if e.1 = n then (n, vd) :: es else e :: upsertVersion es n vd

/-! ## The version allocator (`get_next_version`) -/

/-- The scan performed by `get_next_version` once the `versions/` directory
is known to exist: list subdirectory names, return `v1.0.0` if there are
none, otherwise take `sorted(existing_versions)[-1]` — the maximum under
**string** order — parse it as `v<major>.<minor>.<patch>` (raising
`ValueError` if it does not conform) and bump the patch component. -/
def scanNextVersion (s : Store) : Except PyError String :=
  let existing_versions := versionNames s
  if existing_versions.isEmpty then .ok "v1.0.0"
  else
    let latest_version := (pySortedStr existing_versions).getLastD ""
    match parseVersionTriple latest_version with
    | some (major, minor, patch) => .ok (formatVersion major minor (patch + 1))
    | none => .error .valueError

/-- `ArtifactManager.get_next_version`. -/
def get_next_version (s : Store) : Except PyError String :=
  if s.versionsDirExists = false then .ok "v1.0.0" else scanNextVersion s

/-! ## The bundle writer, latest promoter and catalog indexer -/

/-- The run-metadata record `save_artifacts` builds (a Python dict literal
with these six keys, in this order). -/
structure RunMetadata where
  version : String
  timestamp : String
  metrics : List (String × Json)
  params : List (String × Json)
  model_type : String
  feature_count : Json

/-- The JSON document `json.dump`ed to `versions/<v>/metadata.json`. -/
def RunMetadata.toJson (m : RunMetadata) : Json :=
  .obj [("version", .str m.version), ("timestamp", .str m.timestamp),
        ("metrics", .obj m.metrics), ("params", .obj m.params),
        ("model_type", .str m.model_type), ("feature_count", m.feature_count)]

/-- `ArtifactManager._update_latest`: remove the four files of `latest/`
and re-establish each from the version directory's corresponding file
(reading through a symlink and reading a copy observe the same content,
so both branches are modelled as a content snapshot). -/
def update_latest (s : Store) (version : String) : Store :=
  let version_dir := (lookupVersion s.versions version).getD emptyVersionDir
  { s with latest :=
    { model := version_dir.model, preprocessor := version_dir.preprocessor,
      featureNames := version_dir.featureNames,
      metadataJson := version_dir.metadataJson } }

/-- Descending stable sort by the `timestamp` field
(`versions.sort(key=lambda x: x["timestamp"], reverse=True)`). -/
def pySortedByTimestampDesc (l : List CatalogEntry) : List CatalogEntry :=
  sortByB (fun e x => pyStrLt e.timestamp x.timestamp) l

/-- `ArtifactManager._update_global_metadata`: load the catalog (empty when
the file is absent), set `latest_version`/`last_updated` unconditionally,
drop any summary entry with the saved version's id, append the new summary,
sort by timestamp descending, write back. -/
def update_global_metadata (s : Store) (new_metadata : RunMetadata) : Store :=
  let global0 : Catalog := s.metadataFile.getD {}
  let global1 : Catalog :=
    { global0 with latest_version := some new_metadata.version,
                   last_updated := some new_metadata.timestamp }
  let existing := global1.versions.getD []
  let version_info : CatalogEntry :=
    { version := new_metadata.version, timestamp := new_metadata.timestamp,
      metrics := .obj new_metadata.metrics, model_type := new_metadata.model_type }
  let deduped := existing.filter (fun v => v.version != new_metadata.version)
  let sortedVersions := pySortedByTimestampDesc (deduped ++ [version_info])
  { s with metadataFile := some { global1 with versions := some sortedVersions } }

/-- `ArtifactManager.save_artifacts`: resolve the version (allocator when
omitted), `mkdir(exist_ok=True)` the version directory (raises when
`versions/` itself is absent, since `parents` is not set), dump the three
blobs, build and write the run metadata, promote `latest/`, update the
global catalog, and return the version id.  `now` stands for
`datetime.now().isoformat()`. -/
def save_artifacts (s : Store) (model preprocessor : Json)
    (feature_info metrics params : List (String × Json))
    (versionArg : Option String) (now : String) : Except PyError (String × Store) :=
  let resolved : Except PyError String :=
    match versionArg with
    | some v => .ok v
    | none => get_next_version s
  match resolved with
  | .error e => .error e
  | .ok version =>
    if s.versionsDirExists = false then .error (.fileNotFoundError "mkdir")
    else
      let metadata : RunMetadata :=
        { version := version, timestamp := now, metrics := metrics, params := params,
          model_type := "RandomForestRegressor",
          feature_count := dictGet feature_info "total_features" (.num 0) }
      let version_dir : VersionDir :=
        { model := some model, preprocessor := some preprocessor,
          featureNames := some (.obj feature_info),
          metadataJson := some metadata.toJson }
      let s1 := { s with versions := upsertVersion s.versions version version_dir }
      let s2 := update_latest s1 version
      let s3 := update_global_metadata s2 metadata
      .ok (version, s3)

/-! ## The loader -/

/-- `ArtifactManager.load_latest_artifacts`: raise when `latest/` is absent;
raise when any of the three pickle files is missing; otherwise load the
blobs, defaulting the metadata to `{}` when `metadata.json` is absent. -/
def load_latest_artifacts (s : Store) : Except PyError (Json × Json × Json × Json) :=
  if s.latestDirExists = false then .error (.fileNotFoundError "No artifacts found")
  else
    match s.latest.model, s.latest.preprocessor, s.latest.featureNames with
    | some model, some preprocessor, some feature_info =>
      .ok (model, preprocessor, feature_info, s.latest.metadataJson.getD (.obj []))
    | _, _, _ => .error (.fileNotFoundError "Missing artifact files")

/-- `ArtifactManager.get_version_info`: read one metadata document — the
latest's when `version` is omitted, else `versions/<version>/metadata.json`
— raising when the file does not exist. -/
def get_version_info (s : Store) (version : Option String) : Except PyError Json :=
  let metadataAt : Option Json :=
    match version with
    | none => s.latest.metadataJson
    | some v => (lookupVersion s.versions v).bind (fun vd => vd.metadataJson)
  match metadataAt with
  | none => .error (.fileNotFoundError "Metadata not found")
  | some j => .ok j

/-- `ArtifactManager.list_versions`: iterate the version directories in
sorted name order and collect each one's metadata document, skipping
directories without one.  The global catalog file is never consulted. -/
def list_versions (s : Store) : List Json :=
  if s.versionsDirExists = false then []
  else
    let sortedDirs := sortByB (fun (e x : String × VersionDir) => pyStrLt x.1 e.1) s.versions
    sortedDirs.filterMap (fun e => e.2.metadataJson)

/-- The store after rewriting the metadata document of one version with a
new `metrics` value. -/
def patchedStore (s : Store) (version : String) (vd : VersionDir) (md : Json)
    (m : List (String × Json)) : Store :=
  let patched := jsonSetField md "metrics" (.obj m)
  { s with versions := upsertVersion s.versions version { vd with metadataJson := some patched } }

/-- Modelled from `run_pipeline` (orchestrator, step 4): if the version
directory exists, read its metadata document, set its `metrics` key and
write it back; any failure (such as a missing metadata file) is caught and
logged, leaving the store unchanged. -/
def patch_metrics (s : Store) (version : String) (metrics : List (String × Json)) : Store :=
  match lookupVersion s.versions version with
  | none => s
  | some vd =>
    match vd.metadataJson with
    | none => s
    | some md => patchedStore s version vd md metrics

/-! ## Lemmas about the stable insertion sort -/

theorem insertByB_perm {α : Type} (lt : α → α → Bool) (e : α) :
    ∀ l : List α, List.Perm (insertByB lt e l) (e :: l)
  | [] => List.Perm.refl _
  | x :: xs => by
    simp only [insertByB]
    split
    · exact ((insertByB_perm lt e xs).cons x).trans (List.Perm.swap e x xs)
    · exact List.Perm.refl _

theorem sortByB_perm {α : Type} (lt : α → α → Bool) :
    ∀ l : List α, List.Perm (sortByB lt l) l
  | [] => List.Perm.refl _
  | x :: xs => by
    simp only [sortByB, List.foldr_cons]
    exact (insertByB_perm lt x _).trans ((sortByB_perm lt xs).cons x)

theorem insertByB_pairwise {α : Type} (lt : α → α → Bool)
    (hasymm : ∀ a b, lt a b = true → lt b a = false)
    (htot : ∀ a b c, lt a c = true → lt a b = true ∨ lt b c = true)
    (e : α) :
    ∀ l : List α, l.Pairwise (fun a b => lt a b = false) →
      (insertByB lt e l).Pairwise (fun a b => lt a b = false)
  | [], _ => by simp [insertByB]
  | x :: xs, h => by
    rcases List.pairwise_cons.mp h with ⟨hx, hxs⟩
    simp only [insertByB]
    split
    · rename_i hex
      refine List.pairwise_cons.mpr ⟨?_, insertByB_pairwise lt hasymm htot e xs hxs⟩
      intro z hz
      rcases List.mem_cons.mp ((insertByB_perm lt e xs).mem_iff.mp hz) with rfl | hz
      · exact hasymm _ _ hex
      · exact hx z hz
    · rename_i hex
      refine List.pairwise_cons.mpr ⟨?_, h⟩
      intro z hz
      rcases List.mem_cons.mp hz with rfl | hz
      · exact Bool.eq_false_iff.mpr hex
      · cases hez : lt e z with
        | false => rfl
        | true =>
          rcases htot e x z hez with hcon | hcon
          · exact absurd hcon hex
          · rw [hx z hz] at hcon
            exact absurd hcon (by simp)

theorem sortByB_pairwise {α : Type} (lt : α → α → Bool)
    (hasymm : ∀ a b, lt a b = true → lt b a = false)
    (htot : ∀ a b c, lt a c = true → lt a b = true ∨ lt b c = true) :
    ∀ l : List α, (sortByB lt l).Pairwise (fun a b => lt a b = false)
  | [] => List.Pairwise.nil
  | x :: xs => by
    simp only [sortByB, List.foldr_cons]
    exact insertByB_pairwise lt hasymm htot x _ (sortByB_pairwise lt hasymm htot xs)

/-! ## Lemmas about Python string order -/

theorem charListLt_asymm : ∀ a b : List Char, charListLt a b = true → charListLt b a = false
  | _, [], h => by simp [charListLt] at h
  | [], _ :: _, _ => by simp [charListLt]
  | a :: as, b :: bs, h => by
    simp only [charListLt] at h ⊢
    split at h
    · rename_i hab
      rw [if_neg (by omega), if_pos (by omega)]
    · split at h
      · exact absurd h (by simp)
      · rename_i hab hba
        rw [if_neg (by omega), if_neg (by omega)]
        exact charListLt_asymm as bs h

theorem charListLt_tot : ∀ a b c : List Char,
    charListLt a c = true → charListLt a b = true ∨ charListLt b c = true
  | _, _, [], h => by simp [charListLt] at h
  | [], [], _ :: _, _ => by simp [charListLt]
  | [], _ :: _, _ :: _, _ => by simp [charListLt]
  | _ :: _, [], _ :: _, _ => by simp [charListLt]
  | a :: as, b :: bs, c :: cs, h => by
    simp only [charListLt] at h ⊢
    split at h
    · rename_i hac
      by_cases hab : a.toNat < b.toNat
      · left
        rw [if_pos hab]
      · by_cases hbc : b.toNat < c.toNat
        · right
          rw [if_pos hbc]
        · exact absurd hac (by omega)
    · split at h
      · exact absurd h (by simp)
      · rename_i hac hca
        by_cases hab : a.toNat < b.toNat
        · left
          rw [if_pos hab]
        · by_cases hba : b.toNat < a.toNat
          · right
            rw [if_pos (by omega)]
          · rcases charListLt_tot as bs cs h with hh | hh
            · left
              rw [if_neg hab, if_neg hba]
              exact hh
            · right
              rw [if_neg (by omega), if_neg (by omega)]
              exact hh

theorem pyStrLt_asymm (a b : String) : pyStrLt a b = true → pyStrLt b a = false :=
  charListLt_asymm a.data b.data

theorem pyStrLt_tot (a b c : String) :
    pyStrLt a c = true → pyStrLt a b = true ∨ pyStrLt b c = true :=
  charListLt_tot a.data b.data c.data

/-! ## Store-level support lemmas -/

/-- Field access on a JSON object. -/
def jsonField (j : Json) (k : String) : Option Json :=
  match j with
  | .obj kvs => dictLookup kvs k
  | _ => none

/-- The catalog's `versions` list as the reader sees it (empty when the
catalog file is absent or the key was never written). -/
def catalogVersions (s : Store) : List CatalogEntry :=
  match s.metadataFile with
  | some c => c.versions.getD []
  | none => []

theorem lookupVersion_upsert_self :
    ∀ (l : List (String × VersionDir)) (n : String) (vd : VersionDir),
      lookupVersion (upsertVersion l n vd) n = some vd
  | [], n, vd => by simp [upsertVersion, lookupVersion]
  | e :: es, n, vd => by
    simp only [upsertVersion]
    split
    · simp [lookupVersion]
    · rename_i hne
      simp only [lookupVersion, if_neg hne]
      exact lookupVersion_upsert_self es n vd

theorem lookupVersion_upsert_ne :
    ∀ (l : List (String × VersionDir)) (n m : String) (vd : VersionDir), n ≠ m →
      lookupVersion (upsertVersion l n vd) m = lookupVersion l m
  | [], n, m, vd, hnm => by
    simp only [upsertVersion, lookupVersion]
    rw [if_neg hnm]
  | e :: es, n, m, vd, hnm => by
    simp only [upsertVersion]
    split
    · rename_i hen
      simp only [lookupVersion, if_neg hnm]
      rw [if_neg (by rw [hen]; exact hnm)]
    · simp only [lookupVersion]
      split
      · rfl
      · exact lookupVersion_upsert_ne es n m vd hnm

theorem existing_eq_catalogVersions (s : Store) :
    ((s.metadataFile.getD {}).versions).getD [] = catalogVersions s := by
  unfold catalogVersions
  cases s.metadataFile <;> rfl

/-! ## Claim C1 — version ordering in the allocator -/

/-- A store whose `versions/` directory holds exactly `v1.9.0` and `v1.10.0`. -/
def storeNineTen : Store :=
  { versionsDirExists := true, latestDirExists := true,
    versions := [("v1.9.0", emptyVersionDir), ("v1.10.0", emptyVersionDir)],
    latest := emptyVersionDir, metadataFile := none }

/-- **C1** (code bug): the claim says `get_next_version` orders version
identifiers numerically on the `(major, minor, patch)` triple, so with both
`v1.9.0` and `v1.10.0` on disk it must treat `v1.10.0` as the maximum and
return something numerically above it.  The code sorts the directory names
as Python *strings* (`sorted(existing_versions)[-1]`), under which
`"v1.10.0" < "v1.9.0"`; on this store it picks `v1.9.0` as the maximum and
returns `v1.9.1`, which is numerically *below* `v1.10.0`. -/
theorem get_next_version_string_order_bug :
    get_next_version storeNineTen = .ok "v1.9.1" ∧
    pyStrLt "v1.10.0" "v1.9.0" = true ∧
    parseVersionTriple "v1.9.1" = some (1, 9, 1) ∧
    parseVersionTriple "v1.10.0" = some (1, 10, 0) ∧
    tripleLt (1, 9, 1) (1, 10, 0) = true :=
  ⟨rfl, rfl, rfl, rfl, rfl⟩

/-! ## Claim C2 — strict growth / freshness of allocated identifiers -/

/-- One `save_artifacts` call with `version` omitted and fixed dummy
payloads (the allocation outcome does not depend on the payloads). -/
def demoSaveStep (s : Store) : String × Store :=
  match save_artifacts s .null .null [] [] [] none "" with
  | .ok r => r
  | .error _ => ("", s)

/-- The versions allocated by `n` consecutive `save_artifacts` calls with
`version` omitted, starting from a freshly constructed manager on an empty
store. -/
def demoRun : Nat → List String × Store
  | 0 => ([], Store.init emptyStore)
  | n + 1 =>
    let p := demoRun n
    let q := demoSaveStep p.2
    (p.1 ++ [q.1], q.2)

/-- **C2** (code bug): the claim says every allocation is strictly greater
than all existing version ids, so a sequence of unversioned saves never
repeats an id.  Because the maximum is taken under string order, the 12th
consecutive save re-allocates `v1.0.10` (string order puts `v1.0.9` above
`v1.0.10`), silently overwriting the bundle saved by the 11th call. -/
theorem save_sequence_repeats_version_id :
    (demoRun 12).1 =
      ["v1.0.0", "v1.0.1", "v1.0.2", "v1.0.3", "v1.0.4", "v1.0.5", "v1.0.6",
       "v1.0.7", "v1.0.8", "v1.0.9", "v1.0.10", "v1.0.10"] ∧
    (demoRun 12).1.count "v1.0.10" = 2 ∧
    ¬ (demoRun 12).1.Nodup := by
  refine ⟨by decide, by decide, by decide⟩

/-! ## Claim C3 — malformed directory names during allocation -/

/-- A store whose only version-directory name does not conform to the
`v<major>.<minor>.<patch>` pattern. -/
def storeMalformedOnly : Store :=
  { versionsDirExists := true, latestDirExists := true,
    versions := [("old_model", emptyVersionDir)],
    latest := emptyVersionDir, metadataFile := none }

/-- **C3 counterexample**: the claim says a malformed directory name is
skipped with a warning and never causes the allocation to raise.  But the
code parses `sorted(existing_versions)[-1]` unconditionally with
`map(int, ...)`: when the string-maximal name is malformed, the scan raises
`ValueError`. -/
theorem get_next_version_raises_on_malformed_max :
    get_next_version storeMalformedOnly = .error .valueError := rfl

/-- **C3 (amended)**: only the string-sorted *maximum* of the listing is
ever parsed, so a malformed name that is not that maximum is skipped
(silently, with no warning) and the allocation still returns a version;
a malformed string-maximal name raises `ValueError`. -/
theorem get_next_version_skips_nonmax_malformed (s : Store) (a b c : Int)
    (hdir : s.versionsDirExists = true)
    (hmax : parseVersionTriple ((pySortedStr (versionNames s)).getLastD "") = some (a, b, c)) :
    get_next_version s = .ok (formatVersion a b (c + 1)) := by
  unfold get_next_version
  rw [hdir]
  simp only [Bool.true_eq_false, if_false]
  unfold scanNextVersion
  cases hvn : versionNames s with
  | nil =>
    rw [hvn] at hmax
    exact Option.noConfusion
      (show (none : Option (Int × Int × Int)) = some (a, b, c) from hmax)
  | cons x xs =>
    rw [hvn] at hmax
    simp only [List.isEmpty_cons, if_false, Bool.false_eq_true]
    rw [hmax]

/-- A listing that mixes a malformed name with a well-formed one whose
string order puts the well-formed name last. -/
def storeMixedNames : Store :=
  { versionsDirExists := true, latestDirExists := true,
    versions := [("checkpoint", emptyVersionDir), ("v1.2.3", emptyVersionDir)],
    latest := emptyVersionDir, metadataFile := none }

theorem get_next_version_skips_nonmax_malformed_witness :
    get_next_version storeMixedNames = .ok "v1.2.4" :=
  get_next_version_skips_nonmax_malformed storeMixedNames 1 2 3 rfl rfl

/-! ## Claim C4 — all-or-nothing loading of the latest bundle -/

/-- A latest directory holding the three pickle files but no
`metadata.json`. -/
def storeNoMetadataInLatest : Store :=
  { versionsDirExists := true, latestDirExists := true,
    versions := [],
    latest := { model := some (.str "M"), preprocessor := some (.str "P"),
                featureNames := some (.obj []), metadataJson := none },
    metadataFile := none }

/-- **C4 counterexample**: the claim says `load_latest_artifacts` raises
NotFound whenever any of the *four* required files (including
`metadata.json`) is missing.  The code only checks the three pickles: with
`metadata.json` absent it succeeds and silently substitutes an empty
metadata mapping — a partially populated bundle. -/
theorem load_latest_tolerates_missing_metadata :
    load_latest_artifacts storeNoMetadataInLatest =
      .ok (.str "M", .str "P", .obj [], .obj []) := rfl

/-- **C4 (amended)**: `load_latest_artifacts` is all-or-nothing over the
latest directory and the *three* pickle files only: it raises NotFound when
the directory is absent or any of model/preprocessor/feature_names is
missing (in particular on an empty store), and otherwise returns the three
blobs together with the metadata document, which defaults to an empty
mapping when `metadata.json` alone is missing. -/
theorem load_latest_all_or_nothing_three_files (s : Store) :
    (s.latestDirExists = false →
      load_latest_artifacts s = .error (.fileNotFoundError "No artifacts found")) ∧
    ((s.latest.model = none ∨ s.latest.preprocessor = none ∨ s.latest.featureNames = none) →
      ∃ msg, load_latest_artifacts s = .error (.fileNotFoundError msg)) ∧
    (∀ m p f, s.latestDirExists = true → s.latest.model = some m →
      s.latest.preprocessor = some p → s.latest.featureNames = some f →
      load_latest_artifacts s = .ok (m, p, f, s.latest.metadataJson.getD (.obj []))) ∧
    load_latest_artifacts (Store.init emptyStore) =
      .error (.fileNotFoundError "Missing artifact files") := by
  refine ⟨?_, ?_, ?_, rfl⟩
  · intro h
    simp [load_latest_artifacts, h]
  · intro h
    unfold load_latest_artifacts
    split
    · exact ⟨"No artifacts found", rfl⟩
    · split
      · rename_i mv pv fv hm hp hf
        rcases h with h | h | h
        · rw [h] at hm
          simp at hm
        · rw [h] at hp
          simp at hp
        · rw [h] at hf
          simp at hf
      · exact ⟨"Missing artifact files", rfl⟩
  · intro m p f h hm hp hf
    simp [load_latest_artifacts, h, hm, hp, hf]

theorem load_latest_all_or_nothing_three_files_witness :
    load_latest_artifacts (Store.init emptyStore) =
      .error (.fileNotFoundError "Missing artifact files") ∧
    (∃ msg, load_latest_artifacts (Store.init emptyStore) =
      .error (.fileNotFoundError msg)) :=
  ⟨(load_latest_all_or_nothing_three_files (Store.init emptyStore)).2.2.2,
   (load_latest_all_or_nothing_three_files (Store.init emptyStore)).2.1 (Or.inl rfl)⟩

/-! ## Claim C5 — uniqueness of catalog entries per version id -/

/-- **C5**: recording a save of version `md.version` leaves the catalog with
exactly one summary entry carrying that id (a re-save replaces the old
entry), and for every id the at-most-one-entry invariant is preserved from
any prior catalog state. -/
theorem catalog_unique_version_entries (s : Store) (md : RunMetadata) (w : String) :
    (catalogVersions (update_global_metadata s md)).countP
      (fun e => e.version == md.version) = 1 ∧
    ((catalogVersions s).countP (fun e => e.version == w) ≤ 1 →
      (catalogVersions (update_global_metadata s md)).countP
        (fun e => e.version == w) ≤ 1) := by
  have hcv : catalogVersions (update_global_metadata s md) =
      pySortedByTimestampDesc
        ((catalogVersions s).filter (fun v => v.version != md.version) ++
         [{ version := md.version, timestamp := md.timestamp,
            metrics := .obj md.metrics, model_type := md.model_type }]) := by
    have hcv0 : catalogVersions (update_global_metadata s md) =
        pySortedByTimestampDesc
          ((((s.metadataFile.getD {}).versions).getD []).filter
            (fun v => v.version != md.version) ++
           [{ version := md.version, timestamp := md.timestamp,
              metrics := .obj md.metrics, model_type := md.model_type }]) := rfl
    rw [existing_eq_catalogVersions] at hcv0
    exact hcv0
  have hzero : ∀ u : String,
      (∀ e : CatalogEntry, e.version = u → (e.version != md.version) = true → False) →
      ((catalogVersions s).filter (fun v => v.version != md.version)).countP
        (fun e => e.version == u) = 0 := by
    intro u hu
    apply List.countP_eq_zero.mpr
    intro a ha
    simp only [beq_iff_eq]
    intro hav
    exact hu a hav (List.mem_filter.mp ha).2
  have h1 : (catalogVersions (update_global_metadata s md)).countP
      (fun e => e.version == md.version) = 1 := by
    rw [hcv]
    unfold pySortedByTimestampDesc
    rw [(sortByB_perm _ _).countP_eq, List.countP_append]
    rw [hzero md.version (fun e he hne => by
      rw [he] at hne
      simp at hne)]
    simp [List.countP_cons]
  refine ⟨h1, ?_⟩
  intro hle
  by_cases hw : w = md.version
  · rw [hw]
    rw [h1]
  · rw [hcv]
    unfold pySortedByTimestampDesc
    rw [(sortByB_perm _ _).countP_eq, List.countP_append]
    have hsingle : List.countP (fun e => e.version == w)
        [({ version := md.version, timestamp := md.timestamp,
            metrics := .obj md.metrics, model_type := md.model_type } : CatalogEntry)] = 0 := by
      simp [List.countP_cons]
      exact fun hcon => hw hcon.symm
    rw [hsingle]
    have hfil : ((catalogVersions s).filter (fun v => v.version != md.version)).countP
        (fun e => e.version == w) ≤ (catalogVersions s).countP (fun e => e.version == w) :=
      (List.filter_sublist _).countP_le _
    omega

/-- A prior catalog holding summaries for `v1.0.0` and `v1.0.1`. -/
def storeCatalogDemo : Store :=
  { versionsDirExists := true, latestDirExists := true, versions := [],
    latest := emptyVersionDir,
    metadataFile := some
      { latest_version := some "v1.0.0", last_updated := some "2025-01-01T00:00:00",
        versions := some
          [{ version := "v1.0.0", timestamp := "2025-01-01T00:00:00",
             metrics := .obj [], model_type := "RandomForestRegressor" },
           { version := "v1.0.1", timestamp := "2025-01-01T12:00:00",
             metrics := .obj [], model_type := "RandomForestRegressor" }] } }

/-- A run-metadata record re-saving `v1.0.1` with fresh metrics. -/
def mdDemo : RunMetadata :=
  { version := "v1.0.1", timestamp := "2025-01-02T00:00:00",
    metrics := [("rmse", .num 12)], params := [],
    model_type := "RandomForestRegressor", feature_count := .num 5 }

theorem catalog_unique_version_entries_witness :
    (catalogVersions (update_global_metadata storeCatalogDemo mdDemo)).countP
      (fun e => e.version == "v1.0.1") = 1 ∧
    (catalogVersions (update_global_metadata storeCatalogDemo mdDemo)).countP
      (fun e => e.version == "v1.0.0") ≤ 1 :=
  ⟨(catalog_unique_version_entries storeCatalogDemo mdDemo "v1.0.0").1,
   (catalog_unique_version_entries storeCatalogDemo mdDemo "v1.0.0").2 (by decide)⟩

/-! ## Claim C6 — what one catalog update does -/

/-- **C6**: from any prior catalog state, recording `md` sets
`latest_version` to `md`'s id and `last_updated` to `md`'s timestamp
unconditionally, the appended summary (version, timestamp, metrics,
model-type) is in the resulting `versions` list, and that list is sorted by
timestamp in descending (string) order. -/
theorem catalog_update_sets_latest_and_sorts (s : Store) (md : RunMetadata) :
    ∃ c vs, (update_global_metadata s md).metadataFile = some c ∧
      c.latest_version = some md.version ∧
      c.last_updated = some md.timestamp ∧
      c.versions = some vs ∧
      ({ version := md.version, timestamp := md.timestamp,
         metrics := .obj md.metrics, model_type := md.model_type } : CatalogEntry) ∈ vs ∧
      vs.Pairwise (fun a b => pyStrLt a.timestamp b.timestamp = false) := by
  refine ⟨_, _, rfl, rfl, rfl, rfl, ?_, ?_⟩
  · exact (sortByB_perm _ _).mem_iff.mpr
      (List.mem_append_right _ (List.mem_singleton_self _))
  · exact sortByB_pairwise _
      (fun a b h => pyStrLt_asymm a.timestamp b.timestamp h)
      (fun a b c h => pyStrLt_tot a.timestamp b.timestamp c.timestamp h) _

/-! ## Claim C7 — the run-metadata document written by a successful save -/

/-- The run-metadata record built by `save_artifacts` for `version` at time
`now` (the `metadata` dict literal of the source). -/
def builtMetadata (feature_info metrics params : List (String × Json))
    (version now : String) : RunMetadata :=
  { version := version, timestamp := now, metrics := metrics, params := params,
    model_type := "RandomForestRegressor",
    feature_count := dictGet feature_info "total_features" (.num 0) }

/-- The version-directory contents after the four writes of
`save_artifacts`. -/
def builtVersionDir (model preprocessor : Json)
    (feature_info metrics params : List (String × Json)) (version now : String) : VersionDir :=
  { model := some model, preprocessor := some preprocessor,
    featureNames := some (.obj feature_info),
    metadataJson := some (builtMetadata feature_info metrics params version now).toJson }

/-- The store state after the writes, promotion and catalog update of one
successful `save_artifacts` call. -/
def savedState (s : Store) (model preprocessor : Json)
    (feature_info metrics params : List (String × Json)) (version now : String) : Store :=
  let version_dir := builtVersionDir model preprocessor feature_info metrics params version now
  let s1 : Store := { s with versions := upsertVersion s.versions version version_dir }
  update_global_metadata (update_latest s1 version)
    (builtMetadata feature_info metrics params version now)

/-- Unfolding of `save_artifacts` when an explicit version is passed. -/
theorem save_artifacts_with_version (s : Store) (model preprocessor : Json)
    (feature_info metrics params : List (String × Json)) (version now : String) :
    save_artifacts s model preprocessor feature_info metrics params (some version) now =
      if s.versionsDirExists = false then .error (.fileNotFoundError "mkdir")
      else .ok (version,
        savedState s model preprocessor feature_info metrics params version now) := by
  rfl

/-- Unfolding of `save_artifacts` when the version comes from the
allocator. -/
theorem save_artifacts_no_version (s : Store) (model preprocessor : Json)
    (feature_info metrics params : List (String × Json)) (now : String) :
    save_artifacts s model preprocessor feature_info metrics params none now =
      match get_next_version s with
      | .error e => .error e
      | .ok version =>
        if s.versionsDirExists = false then .error (.fileNotFoundError "mkdir")
        else .ok (version,
          savedState s model preprocessor feature_info metrics params version now) := by
  rfl

/-- What one successful save leaves behind for its version: the metadata
document, its key set and fields, the promoted `latest/`, and the catalog
head. -/
theorem savedState_spec (s : Store) (model preprocessor : Json)
    (feature_info metrics params : List (String × Json)) (version now : String) :
    ∃ vd doc,
      lookupVersion (savedState s model preprocessor feature_info metrics params
        version now).versions version = some vd ∧
      vd.metadataJson = some doc ∧
      jsonKeys doc = ["version", "timestamp", "metrics", "params", "model_type",
                      "feature_count"] ∧
      jsonField doc "version" = some (.str version) ∧
      jsonField doc "timestamp" = some (.str now) ∧
      jsonField doc "metrics" = some (.obj metrics) ∧
      jsonField doc "params" = some (.obj params) ∧
      jsonField doc "model_type" = some (.str "RandomForestRegressor") ∧
      jsonField doc "feature_count" = some (dictGet feature_info "total_features" (.num 0)) ∧
      (savedState s model preprocessor feature_info metrics params
        version now).latest.metadataJson = some doc ∧
      (∃ c, (savedState s model preprocessor feature_info metrics params
          version now).metadataFile = some c ∧
        c.latest_version = some version ∧ c.last_updated = some now) := by
  refine ⟨_, _, lookupVersion_upsert_self s.versions version
    (builtVersionDir model preprocessor feature_info metrics params version now),
    rfl, rfl, ?_, ?_, ?_, ?_, ?_, ?_, ?_, ⟨_, rfl, rfl, rfl⟩⟩
  · rfl
  · rfl
  · rfl
  · rfl
  · rfl
  · rfl
  · show ((lookupVersion (upsertVersion s.versions version
        (builtVersionDir model preprocessor feature_info metrics params version now))
        version).getD emptyVersionDir).metadataJson = _
    rw [lookupVersion_upsert_self]
    rfl

/-- **C7**: every successful `save_artifacts` writes, for the assigned
version `v`, a metadata document with exactly the keys `version`,
`timestamp`, `metrics`, `params`, `model_type`, `feature_count` (in dict
order), whose `version` is `v`, whose `model_type` is the fixed tag, and
whose `feature_count` is the `total_features` entry of `feature_info`
(defaulting to 0 when absent); the call returns `v` (the explicit version
when one was passed) after promoting `latest/` to that document and
pointing the catalog at `v`. -/
theorem save_artifacts_metadata_document (s : Store) (model preprocessor : Json)
    (feature_info metrics params : List (String × Json))
    (versionArg : Option String) (now : String) (v : String) (s2 : Store)
    (h : save_artifacts s model preprocessor feature_info metrics params versionArg now
        = .ok (v, s2)) :
    (∃ vd doc, lookupVersion s2.versions v = some vd ∧ vd.metadataJson = some doc ∧
      jsonKeys doc = ["version", "timestamp", "metrics", "params", "model_type",
                      "feature_count"] ∧
      jsonField doc "version" = some (.str v) ∧
      jsonField doc "timestamp" = some (.str now) ∧
      jsonField doc "metrics" = some (.obj metrics) ∧
      jsonField doc "params" = some (.obj params) ∧
      jsonField doc "model_type" = some (.str "RandomForestRegressor") ∧
      jsonField doc "feature_count" = some (dictGet feature_info "total_features" (.num 0)) ∧
      s2.latest.metadataJson = some doc ∧
      (∃ c, s2.metadataFile = some c ∧ c.latest_version = some v ∧
        c.last_updated = some now)) ∧
    (∀ u, versionArg = some u → v = u) := by
  cases versionArg with
  | none =>
    rw [save_artifacts_no_version] at h
    refine ⟨?_, fun u hu => Option.noConfusion hu⟩
    split at h
    · exact absurd h (by simp)
    · split at h
      · exact absurd h (by simp)
      · simp only [Except.ok.injEq, Prod.mk.injEq] at h
        obtain ⟨hv, hs⟩ := h
        subst hv
        subst hs
        exact savedState_spec _ _ _ _ _ _ _ _
  | some u =>
    rw [save_artifacts_with_version] at h
    split at h
    · exact absurd h (by simp)
    · simp only [Except.ok.injEq, Prod.mk.injEq] at h
      obtain ⟨hv, hs⟩ := h
      subst hv
      subst hs
      exact ⟨savedState_spec s model preprocessor feature_info metrics params u now,
        fun x hx => (Option.some.injEq _ _).mp hx⟩

/-- A feature dictionary with three entries, as produced by preprocessing. -/
def demoFeatureInfo : List (String × Json) :=
  [("categorical_features", .arr [.str "room_type"]),
   ("numerical_features", .arr [.str "minimum_nights"]),
   ("total_features", .num 2)]

theorem save_artifacts_metadata_document_witness :
    ∃ vd doc, lookupVersion
        (savedState (Store.init emptyStore) (.str "M") (.str "P") demoFeatureInfo
          [] [] "v1.0.0" "2025-01-01T00:00:00").versions "v1.0.0" = some vd ∧
      vd.metadataJson = some doc ∧
      jsonKeys doc = ["version", "timestamp", "metrics", "params", "model_type",
                      "feature_count"] ∧
      jsonField doc "feature_count" = some (.num 2) :=
  match save_artifacts_metadata_document (Store.init emptyStore) (.str "M") (.str "P")
      demoFeatureInfo [] [] (some "v1.0.0") "2025-01-01T00:00:00" "v1.0.0"
      (savedState (Store.init emptyStore) (.str "M") (.str "P") demoFeatureInfo
        [] [] "v1.0.0" "2025-01-01T00:00:00") (by rfl) with
  | ⟨⟨vd, doc, h1, h2, h3, _, _, _, _, _, h9, _, _⟩, _⟩ => ⟨vd, doc, h1, h2, h3, h9⟩

/-! ## Claim C8 — writes to one version are framed to that version -/

/-- Unfolding of `get_version_info` for an explicit version id. -/
theorem get_version_info_some (s : Store) (v : String) :
    get_version_info s (some v) =
      match (lookupVersion s.versions v).bind (fun vd => vd.metadataJson) with
      | none => .error (.fileNotFoundError "Metadata not found")
      | some j => .ok j := by
  rfl

/-- `patch_metrics` when the version directory is absent: the orchestrator
catches the failure and the store is unchanged. -/
theorem patch_metrics_no_dir (s : Store) (version : String)
    (m : List (String × Json)) (h : lookupVersion s.versions version = none) :
    patch_metrics s version m = s := by
  unfold patch_metrics
  rw [h]

/-- `patch_metrics` when the metadata document is absent: reading it fails,
the failure is caught, and the store is unchanged. -/
theorem patch_metrics_no_metadata (s : Store) (version : String)
    (m : List (String × Json)) (vd : VersionDir)
    (h1 : lookupVersion s.versions version = some vd) (h2 : vd.metadataJson = none) :
    patch_metrics s version m = s := by
  unfold patch_metrics
  rw [h1]
  show (match vd.metadataJson with
    | none => s
    | some md => patchedStore s version vd md m) = _
  rw [h2]

/-- `patch_metrics` when the metadata document exists: it is rewritten with
the new `metrics` value. -/
theorem patch_metrics_found (s : Store) (version : String)
    (m : List (String × Json)) (vd : VersionDir) (md : Json)
    (h1 : lookupVersion s.versions version = some vd) (h2 : vd.metadataJson = some md) :
    patch_metrics s version m = patchedStore s version vd md m := by
  unfold patch_metrics
  rw [h1]
  show (match vd.metadataJson with
    | none => s
    | some md => patchedStore s version vd md m) = _
  rw [h2]


/-- **C8**: with the directory of version `w` already present and `v ≠ w`,
saving a bundle under `v` and patching the metrics of `v` both leave the
version directory of `w` (all four files) untouched, so `get_version_info`
on `w` returns the same metadata before and after. -/
theorem save_and_patch_frame_other_versions (s : Store) (v w : String) (hne : v ≠ w)
    (wd : VersionDir) (hw : lookupVersion s.versions w = some wd)
    (model preprocessor : Json)
    (feature_info metrics params patchMetrics : List (String × Json)) (now : String) :
    (∀ rv s2, save_artifacts s model preprocessor feature_info metrics params (some v) now
        = .ok (rv, s2) →
      lookupVersion s2.versions w = some wd ∧
      get_version_info s2 (some w) = get_version_info s (some w)) ∧
    lookupVersion (patch_metrics s v patchMetrics).versions w = some wd ∧
    get_version_info (patch_metrics s v patchMetrics) (some w)
      = get_version_info s (some w) := by
  have gvi_congr : ∀ s1 s2 : Store,
      lookupVersion s1.versions w = lookupVersion s2.versions w →
      get_version_info s1 (some w) = get_version_info s2 (some w) := by
    intro s1 s2 hh
    rw [get_version_info_some, get_version_info_some, hh]
  constructor
  · intro rv s2 h
    rw [save_artifacts_with_version] at h
    split at h
    · exact absurd h (by simp)
    · simp only [Except.ok.injEq, Prod.mk.injEq] at h
      obtain ⟨hv, hs⟩ := h
      subst hs
      have hlk : lookupVersion (savedState s model preprocessor feature_info metrics
          params v now).versions w = lookupVersion s.versions w := by
        show lookupVersion (upsertVersion s.versions v
          (builtVersionDir model preprocessor feature_info metrics params v now)) w
          = lookupVersion s.versions w
        exact lookupVersion_upsert_ne _ _ _ _ hne
      exact ⟨hlk.trans hw, gvi_congr _ _ hlk⟩
  · cases hl : lookupVersion s.versions v with
    | none =>
      rw [patch_metrics_no_dir s v patchMetrics hl]
      exact ⟨hw, rfl⟩
    | some vd2 =>
      cases hmd : vd2.metadataJson with
      | none =>
        rw [patch_metrics_no_metadata s v patchMetrics vd2 hl hmd]
        exact ⟨hw, rfl⟩
      | some md2 =>
        rw [patch_metrics_found s v patchMetrics vd2 md2 hl hmd]
        have hlk : lookupVersion (upsertVersion s.versions v
            { vd2 with metadataJson := some (jsonSetField md2 "metrics"
                (.obj patchMetrics)) }) w
            = lookupVersion s.versions w :=
          lookupVersion_upsert_ne _ _ _ _ hne
        exact ⟨hlk.trans hw, gvi_congr _ _ hlk⟩

/-- A store holding two complete version directories, `v1.0.0` and
`v1.0.1`. -/
def storeTwoVersions : Store :=
  { versionsDirExists := true, latestDirExists := true,
    versions :=
      [("v1.0.0",
        { model := some (.str "A"), preprocessor := some (.str "PA"),
          featureNames := some (.obj []),
          metadataJson := some (.obj [("version", .str "v1.0.0"), ("metrics", .obj [])]) }),
       ("v1.0.1",
        { model := some (.str "B"), preprocessor := some (.str "PB"),
          featureNames := some (.obj []),
          metadataJson := some (.obj [("version", .str "v1.0.1"), ("metrics", .obj [])]) })],
    latest := emptyVersionDir, metadataFile := none }

theorem save_and_patch_frame_other_versions_witness :
    get_version_info (patch_metrics storeTwoVersions "v1.0.1" [("rmse", .num 15)])
        (some "v1.0.0")
      = get_version_info storeTwoVersions (some "v1.0.0") :=
  (save_and_patch_frame_other_versions storeTwoVersions "v1.0.1" "v1.0.0"
      (by decide) ((lookupVersion storeTwoVersions.versions "v1.0.0").getD emptyVersionDir)
      (by rfl) (.str "B2") (.str "PB2") [] [] [] [("rmse", .num 15)] "t").2.2

/-! ## Claim C9 — `list_versions` re-derives from the directories -/

/-- **C9**: `list_versions` is insensitive to the global catalog file, and
returns exactly one metadata document per version directory that has one
(directories lacking a metadata document are skipped). -/
theorem list_versions_ground_truth (s : Store) (h : s.versionsDirExists = true) :
    (∀ mf, list_versions { s with metadataFile := mf } = list_versions s) ∧
    List.Perm (list_versions s) (s.versions.filterMap (fun e => e.2.metadataJson)) ∧
    (list_versions s).length = s.versions.countP (fun e => e.2.metadataJson.isSome) := by
  have hperm : List.Perm (list_versions s)
      (s.versions.filterMap (fun e => e.2.metadataJson)) := by
    unfold list_versions
    rw [h]
    simp only [Bool.true_eq_false, if_false]
    exact List.Perm.filterMap _ (sortByB_perm _ _)
  refine ⟨fun mf => rfl, hperm, ?_⟩
  rw [hperm.length_eq]
  exact List.length_filterMap_eq_countP _ _

/-- Two version directories, only one of which has a metadata document,
next to a catalog file pointing at a version that does not exist. -/
def storeListDemo : Store :=
  { versionsDirExists := true, latestDirExists := true,
    versions :=
      [("v1.0.0",
        { model := some .null, preprocessor := some .null,
          featureNames := some (.obj []),
          metadataJson := some (.obj [("version", .str "v1.0.0")]) }),
       ("v1.0.1", emptyVersionDir)],
    latest := emptyVersionDir,
    metadataFile := some { latest_version := some "v9.9.9" } }

theorem list_versions_ground_truth_witness :
    List.Perm (list_versions storeListDemo)
      (storeListDemo.versions.filterMap (fun e => e.2.metadataJson)) ∧
    (list_versions storeListDemo).length
      = storeListDemo.versions.countP (fun e => e.2.metadataJson.isSome) :=
  ⟨(list_versions_ground_truth storeListDemo rfl).2.1,
   (list_versions_ground_truth storeListDemo rfl).2.2⟩

/-! ## Claim C10 — construction makes the directory-absence branches dead -/

/-- **C10**: `__init__` creates `versions/` and `latest/`, so on a
constructed instance `get_next_version` never takes its
versions-dir-missing branch (it always runs the scan), and
`load_latest_artifacts` never raises through the latest-dir-missing check —
on an empty store its failure comes from the required-files check. -/
theorem init_makes_dir_branches_unreachable (s : Store) :
    (Store.init s).versionsDirExists = true ∧
    (Store.init s).latestDirExists = true ∧
    get_next_version (Store.init s) = scanNextVersion (Store.init s) ∧
    load_latest_artifacts (Store.init s)
      ≠ .error (.fileNotFoundError "No artifacts found") ∧
    load_latest_artifacts (Store.init emptyStore)
      = .error (.fileNotFoundError "Missing artifact files") := by
  refine ⟨rfl, rfl, rfl, ?_, rfl⟩
  intro contra
  unfold load_latest_artifacts Store.init at contra
  simp only [Bool.true_eq_false, if_false] at contra
  split at contra
  · exact absurd contra (by simp)
  · simp only [Except.error.injEq, PyError.fileNotFoundError.injEq] at contra
    exact absurd contra (by decide)

end AirbnbMLOps
